import Mathlib

/-!
# Verification of the trac XML-RPC client (src/lib.rs)

A shallow embedding of the ticket-data decoding and workflow-action logic of
the `trac` crate.  The dynamic `xmlrpc::Value` type is modelled by an inductive
`Value` restricted to the kinds the client logic inspects (int, bool, string,
array, struct, nil).  Rust's `BTreeMap<String, Value>` is modelled as an
association list sorted by key, with `mapInsert` performing the ordered
overwrite that `BTreeMap::insert` performs, and `mapGet` the exact-key lookup.

Panics (`unwrap`, `expect`, `BTreeMap` indexing on a missing key) are modelled
by `none` in `Option`-returning decoders, and by the `RunResult.panicked`
outcome at the level of whole operations; the Rust `Err(())` return is
`RunResult.err`.  The remote server is an oracle `RpcCall → Except Unit Value`;
each ticket operation takes it as an argument and the RPC calls an operation
issues are recorded in a `Session` trace.
-/

/-- Model of `xmlrpc::Value`, restricted to the kinds the client inspects.
`struct` carries the entries of the `BTreeMap<String, Value>`. -/
inductive Value where
  | int (i : Int)
  | bool (b : Bool)
  | string (s : String)
  | array (elems : List Value)
  | struct (entries : List (String × Value))
  | nil


/-- `BTreeMap::get` / exact-key lookup in a struct's entry list. -/
def mapGet (k : String) : List (String × Value) → Option Value
  | [] => none
  | (k', v) :: rest => if k' = k then some v else mapGet k rest

/-- `BTreeMap::insert`: ordered insert that overwrites an existing key. -/
def mapInsert (k : String) (v : Value) : List (String × Value) → List (String × Value)
  | [] => [(k, v)]
  | (k', v') :: rest =>
    if k < k' then (k, v) :: (k', v') :: rest
    else if k = k' then (k, v) :: rest
    else (k', v') :: mapInsert k v rest

/-- Number of entries of a struct's entry list carrying the key `k`. -/
def countKey (k : String) : List (String × Value) → Nat
  | [] => 0
  | (k', _) :: rest => (if k' = k then 1 else 0) + countKey k rest

/-- `Value::as_str`: `some` exactly on strings. -/
def Value.as_str : Value → Option String
  | .string s => some s
  | _ => none

/-- `Value::as_i32`: `some` exactly on ints. -/
def Value.as_i32 : Value → Option Int
  | .int i => some i
  | _ => none

/-- `Value::as_struct`: `some` exactly on structs. -/
def Value.as_struct : Value → Option (List (String × Value))
  | .struct m => some m
  | _ => none

/-- `Value::as_array`: `some` exactly on arrays. -/
def Value.as_array : Value → Option (List Value)
  | .array xs => some xs
  | _ => none

/-- `value[i]` (the `Index<usize>` impl of `xmlrpc::Value`): element `i` of an
array, `Value::Nil` out of bounds or on a non-array. -/
def valueIndex (v : Value) (i : Nat) : Value :=
  match v with
  | .array xs => xs.getD i Value.nil
  | _ => Value.nil

/-- `val_to_string`: `val.as_str().unwrap().to_string()`.  `none` models the
panic of `unwrap` on a non-string value. -/
def val_to_string (val : Value) : Option String :=
  val.as_str

/-- `get_val`: looks `field` up in `valmap`; a missing key yields `""`, a
present key goes through `val_to_string` (so a present non-string value
panics, modelled by `none`). -/
def get_val (valmap : List (String × Value)) (field : String) : Option String :=
  match mapGet field valmap with
  | some val => val_to_string val
  | none => some ""

/-- Outcome of running one whole operation: `ok` and `err` are the Rust
`Ok`/`Err(())` returns, `panicked` an `unwrap`/`expect`/indexing panic. -/
inductive RunResult (α : Type) where
  | ok (a : α)
  | err
  | panicked


/-- One remote procedure call: method name and positional arguments. -/
structure RpcCall where
  method : String
  args : List Value


/-- The remote server as an oracle: `Except.error` is a transport/RPC-layer
failure of `Request::call`, `Except.ok` the decoded response value. -/
def Server : Type := RpcCall → Except Unit Value

/-- The local ticket record decoded from a `ticket.get` response. -/
structure TracTicket where
  id : Int
  summary : String
  description : String
  component : String
  owner : String
  reporter : String
  tester : String
  priority : String
  milestone : String
  status : String
  reviewer : String
  resolution : String

/-- A workflow action: name plus (display-only) description. -/
structure TracAction where
  name : String
  description : String

/-- `TracAction::new`: local construction with an empty description. -/
def TracAction.new (name : String) : TracAction :=
  { name := name, description := "" }

/-- The six declared field types; `Integer` and `Float` are never produced by
the label mapping. -/
inductive TracTicketFieldType where
  | DropDown
  | String
  | Integer
  | Text
  | Float
  | Boolean

/-- One decoded ticket-field descriptor. -/
structure TracTicketField where
  name : String
  field_type : TracTicketFieldType
  options : Option (List String)
  default : Option String

/-- The decoded field schema. -/
structure TracTicketFieldSet where
  fields : List TracTicketField

/-- The `match type_label.as_str()` arm of `TracTicketFieldSet::get`:
recognised labels map to a field type, anything else hits the
`_ => continue` arm (`none`). -/
def decodeFieldType (label : String) : Option TracTicketFieldType :=
  if label = "text" then some .String
  else if label = "textarea" then some .Text
  else if label = "select" then some .DropDown
  else if label = "radio" then some .DropDown
  else if label = "checkbox" then some .Boolean
  else none

/-- The `default` entry decoding: a present non-empty string becomes `some`,
anything else (absent, empty, non-string) `none`. -/
def decodeDefault (entry : Option Value) : Option String :=
  match entry with
  | some (.string d) => if d ≠ "" then some d else none
  | _ => none

/-- `o.iter().map(|v| v.as_str().expect(..).to_string()).collect()`: decodes
every element as a string, panicking (`none`) on the first non-string one. -/
def decodeOptionStrings : List Value → Option (List String)
  | [] => some []
  | v :: rest =>
    match v.as_str with
    | none => none
    | some s => (decodeOptionStrings rest).map (fun ss => s :: ss)

/-- The `options` entry decoding: outer `none` is the `expect` panic; a
present array decodes element-wise, a present non-array or an absent entry
yields no options. -/
def decodeOptionsEntry (entry : Option Value) : Option (Option (List String)) :=
  match entry with
  | some (.array o) => (decodeOptionStrings o).map some
  | some _ => some none
  | none => some none

/-- Per-element outcome inside the `TracTicketFieldSet::get` loop. -/
inductive FieldStep where
  | skip
  | panicked
  | keep (f : TracTicketField)

/-- The body of the `for field_val in result` loop of
`TracTicketFieldSet::get`, for one element.  A non-struct element, a
non-string `name` or `type` value, and an unrecognised type label are skipped;
`field_meta["name"]` / `field_meta["type"]` on a missing key panic (BTreeMap
indexing), and a non-string element of a present `options` array panics. -/
def decodeFieldElem (v : Value) : FieldStep :=
  match v.as_struct with
  | none => .skip
  | some field_meta =>
    match mapGet "name" field_meta with
    | none => .panicked
    | some nameVal =>
      match nameVal with
      | .string field_name =>
        match mapGet "type" field_meta with
        | none => .panicked
        | some typeVal =>
          match typeVal with
          | .string type_label =>
            match decodeFieldType type_label with
            | none => .skip
            | some field_type =>
              match decodeOptionsEntry (mapGet "options" field_meta) with
              | none => .panicked
              | some field_options =>
                .keep { name := field_name, field_type := field_type,
                        options := field_options,
                        default := decodeDefault (mapGet "default" field_meta) }
          | _ => .skip
      | _ => .skip

/-- Folds the loop over all elements of the response array: a panicking
element aborts the whole read (`none`), a skipped one contributes nothing. -/
def decodeFields : List Value → Option (List TracTicketField)
  | [] => some []
  | v :: rest =>
    match decodeFieldElem v with
    | .skip => decodeFields rest
    | .panicked => none
    | .keep f => (decodeFields rest).map (fun fs => f :: fs)

/-- `TracTicketFieldSet::get`: calls `ticket.getTicketFields`, `expect`s an
array response and decodes it; a transport error is `Err(())`. -/
def TracTicketFieldSet.get (srv : Server) : RunResult TracTicketFieldSet :=
  match srv { method := "ticket.getTicketFields", args := [] } with
  | .error _ => .err
  | .ok r =>
    match r.as_array with
    | none => .panicked
    | some result =>
      match decodeFields result with
      | none => .panicked
      | some fields => .ok { fields := fields }

/-- The eleven `get_val` lookups of the `TracTicket` struct literal in
`TracTicket::get`, on an already-extracted id and attribute struct; `none`
models a panic in any of the lookups. -/
def decodeTicketFields (id : Int) (fields : List (String × Value)) :
    Option TracTicket := do
  let summary ← get_val fields "summary"
  let description ← get_val fields "description"
  let component ← get_val fields "component"
  let reporter ← get_val fields "reporter"
  let owner ← get_val fields "owner"
  let reviewer ← get_val fields "reviewer"
  let tester ← get_val fields "tester"
  let priority ← get_val fields "priority"
  let milestone ← get_val fields "milestone"
  let status ← get_val fields "status"
  let resolution ← get_val fields "resolution"
  pure { id := id, summary := summary, description := description,
         component := component, owner := owner, reporter := reporter,
         tester := tester, priority := priority, milestone := milestone,
         status := status, reviewer := reviewer, resolution := resolution }

/-- The decoding part of `TracTicket::get` on a response value `r`:
`r[3].as_struct().unwrap()`, then `r[0].as_i32().unwrap()`, then the eleven
`get_val` lookups; `none` models a panic in any of them. -/
def decodeTicket (r : Value) : Option TracTicket := do
  let fields ← (valueIndex r 3).as_struct
  let id ← (valueIndex r 0).as_i32
  decodeTicketFields id fields

/-- `TracTicket::get`: calls `ticket.get(id)`; a transport error is `Err(())`,
a decode failure is a panic. -/
def TracTicket.get (srv : Server) (id : Int) : RunResult TracTicket :=
  match srv { method := "ticket.get", args := [Value.int id] } with
  | .error _ => .err
  | .ok r =>
    match decodeTicket r with
    | none => .panicked
    | some t => .ok t

/-- One element of a `ticket.getActions` response:
`val_to_string(&item[0])` and `val_to_string(&item[1])`; `none` is the
`unwrap` panic on a non-string component. -/
def decodeAction (item : Value) : Option TracAction := do
  let n ← val_to_string (valueIndex item 0)
  let d ← val_to_string (valueIndex item 1)
  pure { name := n, description := d }

/-- Decodes all elements of a `ticket.getActions` response array; `none` if
any element panics. -/
def decodeActions : List Value → Option (List TracAction)
  | [] => some []
  | item :: rest =>
    match decodeAction item with
    | none => none
    | some a => (decodeActions rest).map (fun as => a :: as)

/-- `TracTicket::actions`: a transport error yields `vec![]`; an `Ok` value
that is not an array also yields `vec![]` (the `if let Value::Array` guard);
an array is decoded element-wise, panicking (`none`) on malformed elements. -/
def TracTicket.actions (srv : Server) (t : TracTicket) : Option (List TracAction) :=
  match srv { method := "ticket.getActions", args := [Value.int t.id] } with
  | .error _ => some []
  | .ok r =>
    match r with
    | .array v => decodeActions v
    | _ => some []

/-- The caller's view of one ticket: the local record (never written by the
workflow methods, which take `&self`) plus the ghost trace of RPC calls
issued so far. -/
structure Session where
  ticket : TracTicket
  trace : List RpcCall

/-- `match comment { Some(c) => c, None => "" }`. -/
def commentOrEmpty (comment : Option String) : String :=
  match comment with
  | some c => c
  | none => ""

/-- The attribute map built by `TracTicket::modify_attributes`: successive
`BTreeMap::insert` of each pair, each value wrapped as `Value::String`. -/
def buildAttrs (attributes : List (String × String)) : List (String × Value) :=
  attributes.foldl (fun m kv => mapInsert kv.1 (Value.string kv.2) m) []

/-- `TracTicket::modify_attributes`: issues one `ticket.update(id, comment,
attrs)` call; `Ok(())` on success, `Err(())` on a transport error.  The local
record is untouched; the call is appended to the ghost trace. -/
def modify_attributes (srv : Server) (attributes : List (String × String))
    (comment : Option String) (s : Session) : Session × RunResult Unit :=
  let c : RpcCall :=
    { method := "ticket.update",
      args := [Value.int s.ticket.id, Value.string (commentOrEmpty comment),
               Value.struct (buildAttrs attributes)] }
  ({ s with trace := s.trace ++ [c] },
   match srv c with
   | .ok _ => .ok ()
   | .error _ => .err)

/-- `TracTicket::apply_action`: one update with the single attribute
`action = action.name`. -/
def apply_action (srv : Server) (action : TracAction) (comment : Option String)
    (s : Session) : Session × RunResult Unit :=
  modify_attributes srv [("action", action.name)] comment s

/-- `TracTicket::set_reviewer`: one update with the single attribute
`reviewer = name` and no comment. -/
def set_reviewer (srv : Server) (reviewer : String) (s : Session) :
    Session × RunResult Unit :=
  modify_attributes srv [("reviewer", reviewer)] none s

/-- `TracTicket::request_review`: sets the reviewer (result discarded), then
applies the `peer_review` action with the generated comment. -/
def request_review (srv : Server) (reviewer : String) (s : Session) :
    Session × RunResult Unit :=
  let (s1, _) := set_reviewer srv reviewer s
  apply_action srv (TracAction.new "peer_review")
    (some ("Sent to " ++ reviewer ++ " for review")) s1

/-- `TracTicket::review_fail`: action `reject` with the reason as comment. -/
def review_fail (srv : Server) (reason : String) (s : Session) :
    Session × RunResult Unit :=
  apply_action srv (TracAction.new "reject") (some reason) s

/-- `TracTicket::review_pass`: action `pass_peer_review`. -/
def review_pass (srv : Server) (comment : Option String) (s : Session) :
    Session × RunResult Unit :=
  apply_action srv (TracAction.new "pass_peer_review") comment s

/-- `TracTicket::release`: action `leave`. -/
def release (srv : Server) (comment : Option String) (s : Session) :
    Session × RunResult Unit :=
  apply_action srv (TracAction.new "leave") comment s

/-- `TracTicket::accept`: action `accept` or `no_estimate_needed` depending
on the `estimate` flag. -/
def accept (srv : Server) (estimate : Bool) (comment : Option String)
    (s : Session) : Session × RunResult Unit :=
  let action_name := if estimate then "accept" else "no_estimate_needed"
  apply_action srv (TracAction.new action_name) comment s

/-- `TracTicket::reopen`: action `reopen`. -/
def reopen (srv : Server) (comment : Option String) (s : Session) :
    Session × RunResult Unit :=
  apply_action srv (TracAction.new "reopen") comment s

/-- `TracTicket::close`: action `resolve`. -/
def close (srv : Server) (comment : Option String) (s : Session) :
    Session × RunResult Unit :=
  apply_action srv (TracAction.new "resolve") comment s

/-- The eleven attribute keys `TracTicket::get` tracks. -/
def trackedKeys : List String :=
  ["summary", "description", "component", "reporter", "owner", "reviewer",
   "tester", "priority", "milestone", "status", "resolution"]

/-- All keys of the entry list are strictly above `k` (the ordering invariant
of a `BTreeMap` node's successors). -/
def keysGt (k : String) (m : List (String × Value)) : Prop :=
  ∀ p ∈ m, k < p.1

/-- The entry list is strictly sorted by key — the shape every `BTreeMap`
value satisfies, and `mapInsert` preserves. -/
inductive SortedMap : List (String × Value) → Prop
  | nil : SortedMap []
  | cons (k : String) (v : Value) {m : List (String × Value)} :
      keysGt k m → SortedMap m → SortedMap ((k, v) :: m)

/-- The value of the last pair with key `k` in an attribute-pair list. -/
def lastAssoc (k : String) : List (String × String) → Option String
  | [] => none
  | (k', v) :: rest =>
    match lastAssoc k rest with
    | some v' => some v'
    | none => if k' = k then some v else none

/-- Number of pairs with key `k` in an attribute-pair list. -/
def countPairsKey (k : String) : List (String × String) → Nat
  | [] => 0
  | (k', _) :: rest => (if k' = k then 1 else 0) + countPairsKey k rest

-- Sanity checks of the decoder model on concrete values.
example : get_val [("k", Value.string "v")] "k" = some "v" := rfl
example : get_val [] "k" = some "" := rfl
example : get_val [("k", Value.int 3)] "k" = none := rfl

/-! ## Map lemmas: `mapInsert` against `mapGet`, sortedness, key counts -/

theorem mapGet_mapInsert (j k : String) (v : Value) (m : List (String × Value)) :
    mapGet k (mapInsert j v m) = if j = k then some v else mapGet k m := by
  induction m with
  | nil => simp [mapInsert, mapGet]
  | cons hd tl ih =>
    obtain ⟨k', v'⟩ := hd
    by_cases h1 : j < k'
    · simp [mapInsert, h1, mapGet]
    · by_cases h2 : j = k'
      · subst h2
        simp only [mapInsert, if_neg h1, if_pos rfl, mapGet]
        by_cases hjk : j = k <;> simp [hjk]
      · simp only [mapInsert, if_neg h1, if_neg h2, mapGet, ih]
        by_cases h3 : k' = k
        · subst h3
          simp [h2]
        · simp [h3]

theorem mem_mapInsert {p : String × Value} {j : String} {v : Value}
    {m : List (String × Value)} (h : p ∈ mapInsert j v m) :
    p = (j, v) ∨ p ∈ m := by
  induction m with
  | nil =>
    simp [mapInsert] at h
    exact Or.inl h
  | cons hd tl ih =>
    obtain ⟨k', v'⟩ := hd
    by_cases h1 : j < k'
    · simp only [mapInsert, if_pos h1, List.mem_cons] at h
      rcases h with h | h | h
      · exact Or.inl h
      · exact Or.inr (by simp [h])
      · exact Or.inr (by simp [h])
    · by_cases h2 : j = k'
      · simp only [mapInsert, if_neg h1, if_pos h2, List.mem_cons] at h
        rcases h with h | h
        · exact Or.inl h
        · exact Or.inr (by simp [h])
      · simp only [mapInsert, if_neg h1, if_neg h2, List.mem_cons] at h
        rcases h with h | h
        · exact Or.inr (by simp [h])
        · rcases ih h with h' | h'
          · exact Or.inl h'
          · exact Or.inr (by simp [h'])

theorem keysGt_mapInsert {a j : String} {v : Value} {m : List (String × Value)}
    (haj : a < j) (h : keysGt a m) : keysGt a (mapInsert j v m) := by
  intro p hp
  rcases mem_mapInsert hp with h' | h'
  · rw [h']
    exact haj
  · exact h p h'

theorem sortedMap_mapInsert {m : List (String × Value)} (j : String) (v : Value)
    (h : SortedMap m) : SortedMap (mapInsert j v m) := by
  induction h with
  | nil =>
    exact SortedMap.cons j v (by intro p hp; cases hp) SortedMap.nil
  | cons k' v' hgt hs ih =>
    rename_i m'
    by_cases h1 : j < k'
    · simp only [mapInsert, if_pos h1]
      refine SortedMap.cons j v ?_ (SortedMap.cons k' v' hgt hs)
      intro p hp
      rcases List.mem_cons.mp hp with h' | h'
      · rw [h']
        exact h1
      · exact lt_trans h1 (hgt p h')
    · by_cases h2 : j = k'
      · subst h2
        simp only [mapInsert, if_neg h1, if_pos rfl]
        exact SortedMap.cons j v hgt hs
      · simp only [mapInsert, if_neg h1, if_neg h2]
        have hkj : k' < j := lt_of_le_of_ne (le_of_not_lt h1) (Ne.symm h2)
        exact SortedMap.cons k' v' (keysGt_mapInsert hkj hgt) ih

theorem countKey_eq_zero {k : String} {m : List (String × Value)}
    (h : keysGt k m) : countKey k m = 0 := by
  induction m with
  | nil => rfl
  | cons hd tl ih =>
    obtain ⟨k', v'⟩ := hd
    have hk : k < k' := h (k', v') (by simp)
    have hne : k' ≠ k := ne_of_gt hk
    simp only [countKey, if_neg hne, Nat.zero_add]
    exact ih (fun p hp => h p (List.mem_cons_of_mem _ hp))

theorem countKey_sorted {m : List (String × Value)} (h : SortedMap m)
    (k : String) :
    countKey k m = if (mapGet k m).isSome then 1 else 0 := by
  induction h with
  | nil => rfl
  | cons k' v' hgt hs ih =>
    by_cases hk : k' = k
    · subst hk
      simp [countKey, mapGet, countKey_eq_zero hgt]
    · simp [countKey, mapGet, hk, ih]

theorem sortedMap_foldl (attrs : List (String × String)) :
    ∀ m : List (String × Value), SortedMap m →
      SortedMap (attrs.foldl (fun m kv => mapInsert kv.1 (Value.string kv.2) m) m) := by
  induction attrs with
  | nil => intro m hm; exact hm
  | cons kv rest ih =>
    intro m hm
    exact ih _ (sortedMap_mapInsert kv.1 (Value.string kv.2) hm)

theorem sortedMap_buildAttrs (attrs : List (String × String)) :
    SortedMap (buildAttrs attrs) :=
  sortedMap_foldl attrs [] SortedMap.nil

theorem mapGet_foldl (k : String) (attrs : List (String × String)) :
    ∀ m : List (String × Value),
      mapGet k (attrs.foldl (fun m kv => mapInsert kv.1 (Value.string kv.2) m) m) =
        match lastAssoc k attrs with
        | some v => some (Value.string v)
        | none => mapGet k m := by
  induction attrs with
  | nil => intro m; rfl
  | cons kv rest ih =>
    intro m
    obtain ⟨k1, v1⟩ := kv
    simp only [List.foldl_cons, ih, lastAssoc]
    cases hrest : lastAssoc k rest with
    | some v => rfl
    | none =>
      simp only [mapGet_mapInsert]
      by_cases hk : k1 = k <;> simp [hk]

theorem mapGet_buildAttrs (k : String) (attrs : List (String × String)) :
    mapGet k (buildAttrs attrs) = (lastAssoc k attrs).map Value.string := by
  have h := mapGet_foldl k attrs []
  cases hrest : lastAssoc k attrs with
  | some v => simpa [buildAttrs, hrest] using h
  | none => simpa [buildAttrs, hrest, mapGet] using h

theorem countPairsKey_eq_zero_of_lastAssoc_none {k : String}
    {attrs : List (String × String)} (h : lastAssoc k attrs = none) :
    countPairsKey k attrs = 0 := by
  induction attrs with
  | nil => rfl
  | cons kv rest ih =>
    obtain ⟨k1, v1⟩ := kv
    simp only [lastAssoc] at h
    cases hrest : lastAssoc k rest with
    | some v => rw [hrest] at h; exact absurd h (by simp)
    | none =>
      rw [hrest] at h
      by_cases hk : k1 = k
      · rw [if_pos hk] at h; exact absurd h (by simp)
      · simp only [countPairsKey, if_neg hk, Nat.zero_add]
        exact ih hrest

theorem lastAssoc_isSome_of_count {k : String} {attrs : List (String × String)}
    (h : 1 ≤ countPairsKey k attrs) : (lastAssoc k attrs).isSome := by
  cases hla : lastAssoc k attrs with
  | some v => rfl
  | none =>
    rw [countPairsKey_eq_zero_of_lastAssoc_none hla] at h
    exact absurd h (by simp)

/-! ## Concrete fixtures used by witnesses and counterexamples -/

/-- A server oracle that answers every call with `Ok(Value::Nil)`. -/
def srvOk : Server := fun _ => Except.ok Value.nil

/-- A sample decoded ticket record. -/
def sampleTicket : TracTicket :=
  { id := 1, summary := "", description := "", component := "", owner := "",
    reporter := "", tester := "", priority := "", milestone := "",
    status := "", reviewer := "", resolution := "" }

/-- A fresh session on `sampleTicket` with an empty call trace. -/
def session0 : Session := { ticket := sampleTicket, trace := [] }

/-! ## Claim theorems -/

/-- C8: `get_val` returns `""` when the key is absent and the decoded string
when the key is present with a string-typed value, for every mapping and
key. -/
theorem C8_theorem (m : List (String × Value)) (k : String) :
    (mapGet k m = none → get_val m k = some "") ∧
    ∀ s, mapGet k m = some (Value.string s) → get_val m k = some s := by
  constructor
  · intro h
    simp [get_val, h]
  · intro s h
    simp [get_val, h, val_to_string, Value.as_str]

/-- Witness for C8 at an absent key and at a present string-valued key. -/
theorem C8_witness :
    get_val [] "k" = some "" ∧
    get_val [("k", Value.string "v")] "k" = some "v" :=
  ⟨(C8_theorem [] "k").1 rfl, (C8_theorem [("k", Value.string "v")] "k").2 "v" rfl⟩

/-- C1 counterexample: on the mapping `{k ↦ Int 3}` the key `k` is present
with a non-string value and `get_val` panics (`none`) — it does not return a
string, in particular not the empty string. -/
theorem C1_counterexample :
    get_val [("k", Value.int 3)] "k" = none ∧
    get_val [("k", Value.int 3)] "k" ≠ some "" :=
  ⟨rfl, by decide⟩

/-- C1 amended: `get_val` returns `""` at an absent key and the value at a
present string-valued key, but a present key whose value is not a string
makes it panic (`unwrap` on `as_str`), rather than yield `""`. -/
theorem C1_theorem (m : List (String × Value)) (k : String) :
    (mapGet k m = none → get_val m k = some "") ∧
    (∀ s, mapGet k m = some (Value.string s) → get_val m k = some s) ∧
    (∀ v, mapGet k m = some v → (∀ s, v ≠ Value.string s) → get_val m k = none) := by
  refine ⟨?_, ?_, ?_⟩
  · intro h
    simp [get_val, h]
  · intro s h
    simp [get_val, h, val_to_string, Value.as_str]
  · intro v h hv
    simp only [get_val, h, val_to_string]
    cases v with
    | string s => exact absurd rfl (hv s)
    | int i => rfl
    | bool b => rfl
    | array xs => rfl
    | struct m' => rfl
    | nil => rfl

/-- Witness for C1 amended at an absent key, a string-valued key, and a
bool-valued key. -/
theorem C1_witness :
    get_val [] "a" = some "" ∧
    get_val [("a", Value.string "x")] "a" = some "x" ∧
    get_val [("a", Value.bool true)] "a" = none :=
  ⟨(C1_theorem [] "a").1 rfl,
   (C1_theorem [("a", Value.string "x")] "a").2.1 "x" rfl,
   (C1_theorem [("a", Value.bool true)] "a").2.2 (Value.bool true) rfl
     (fun _ h => Value.noConfusion h)⟩

/-- C10: when the attribute-pair list given to `modify_attributes` contains
the same name more than once, the struct sent in the `ticket.update` call
binds that name exactly once, to the value of the last pair carrying it. -/
theorem C10_theorem (srv : Server) (s : Session) (comment : Option String)
    (attrs : List (String × String)) (name : String)
    (h : 2 ≤ countPairsKey name attrs) :
    (modify_attributes srv attrs comment s).1.trace =
      s.trace ++ [{ method := "ticket.update",
                    args := [Value.int s.ticket.id,
                             Value.string (commentOrEmpty comment),
                             Value.struct (buildAttrs attrs)] }] ∧
    countKey name (buildAttrs attrs) = 1 ∧
    mapGet name (buildAttrs attrs) = (lastAssoc name attrs).map Value.string := by
  refine ⟨rfl, ?_, mapGet_buildAttrs name attrs⟩
  have hsorted := sortedMap_buildAttrs attrs
  rw [countKey_sorted hsorted name, mapGet_buildAttrs name attrs]
  have hsome := lastAssoc_isSome_of_count (le_trans (by norm_num) h)
  cases hla : lastAssoc name attrs with
  | some v => simp
  | none =>
    rw [hla] at hsome
    exact absurd hsome (by simp)

/-- Witness for C10 on the pair list `[a↦1, b↦2, a↦3]`: the struct sent binds
`a` once, to `"3"`. -/
theorem C10_witness :
    2 ≤ countPairsKey "a" [("a", "1"), ("b", "2"), ("a", "3")] ∧
    ((modify_attributes srvOk [("a", "1"), ("b", "2"), ("a", "3")] none session0).1.trace =
      session0.trace ++ [{ method := "ticket.update",
                           args := [Value.int session0.ticket.id,
                                    Value.string (commentOrEmpty none),
                                    Value.struct (buildAttrs [("a", "1"), ("b", "2"), ("a", "3")])] }] ∧
     countKey "a" (buildAttrs [("a", "1"), ("b", "2"), ("a", "3")]) = 1 ∧
     mapGet "a" (buildAttrs [("a", "1"), ("b", "2"), ("a", "3")]) =
       some (Value.string "3")) :=
  ⟨by decide,
   C10_theorem srvOk session0 none [("a", "1"), ("b", "2"), ("a", "3")] "a" (by decide)⟩

/-- C5: for every server behaviour (in particular when the first call fails),
`request_review` appends exactly two `ticket.update` calls to the trace, in
order: first `reviewer = name` with no action attribute and empty comment,
then `action = peer_review` with the generated comment. -/
theorem C5_theorem (srv : Server) (s : Session) (name : String) :
    ((request_review srv name s).1).trace =
      s.trace ++
        [{ method := "ticket.update",
           args := [Value.int s.ticket.id, Value.string "",
                    Value.struct [("reviewer", Value.string name)]] },
         { method := "ticket.update",
           args := [Value.int s.ticket.id,
                    Value.string ("Sent to " ++ name ++ " for review"),
                    Value.struct [("action", Value.string "peer_review")]] }] := by
  simp [request_review, set_reviewer, apply_action, modify_attributes,
        commentOrEmpty, buildAttrs, mapInsert, TracAction.new]

/-- C9: none of the workflow mutation operations changes the local ticket
record of the session it runs in, whatever the server answers. -/
theorem C9_theorem (srv : Server) (s : Session) :
    (∀ attrs comment, ((modify_attributes srv attrs comment s).1).ticket = s.ticket) ∧
    (∀ name, ((set_reviewer srv name s).1).ticket = s.ticket) ∧
    (∀ name, ((request_review srv name s).1).ticket = s.ticket) ∧
    (∀ reason, ((review_fail srv reason s).1).ticket = s.ticket) ∧
    (∀ comment, ((review_pass srv comment s).1).ticket = s.ticket) ∧
    (∀ comment, ((release srv comment s).1).ticket = s.ticket) ∧
    (∀ estimate comment, ((accept srv estimate comment s).1).ticket = s.ticket) ∧
    (∀ comment, ((reopen srv comment s).1).ticket = s.ticket) ∧
    (∀ comment, ((close srv comment s).1).ticket = s.ticket) :=
  ⟨fun _ _ => rfl, fun _ => rfl, fun _ => rfl, fun _ => rfl, fun _ => rfl,
   fun _ => rfl, fun _ _ => rfl, fun _ => rfl, fun _ => rfl⟩

/-- C3 counterexample: on a response whose index-0 value is a string,
`TracTicket::get` panics (the `unwrap` on `as_i32`); it does not return the
error variant to the caller. -/
theorem C3_counterexample :
    TracTicket.get (fun _ => Except.ok (Value.array
      [Value.string "x", Value.nil, Value.nil, Value.struct []])) 1 =
        RunResult.panicked ∧
    TracTicket.get (fun _ => Except.ok (Value.array
      [Value.string "x", Value.nil, Value.nil, Value.struct []])) 1 ≠
        RunResult.err :=
  ⟨rfl, fun h => RunResult.noConfusion h⟩

/-- C3 amended: on every `ticket.get` response whose index-0 value does not
decode as an integer, the operation does not succeed — it panics (aborts)
rather than returning the error variant. -/
theorem C3_theorem (srv : Server) (id : Int) (r : Value)
    (h : srv { method := "ticket.get", args := [Value.int id] } = Except.ok r)
    (h0 : (valueIndex r 0).as_i32 = none) :
    TracTicket.get srv id = RunResult.panicked := by
  unfold TracTicket.get
  rw [h]
  cases h3 : (valueIndex r 3).as_struct with
  | none =>
    simp only [decodeTicket, Option.bind_eq_bind', h3, Option.none_bind]
  | some fields =>
    simp only [decodeTicket, Option.bind_eq_bind', h3, Option.some_bind, h0,
      Option.none_bind]

/-- Witness for C3 amended on a response whose index-0 value is `Nil`. -/
theorem C3_witness :
    (valueIndex (Value.array [Value.nil]) 0).as_i32 = none ∧
    TracTicket.get (fun _ => Except.ok (Value.array [Value.nil])) 2 =
      RunResult.panicked :=
  ⟨rfl, C3_theorem (fun _ => Except.ok (Value.array [Value.nil])) 2
    (Value.array [Value.nil]) rfl rfl⟩

theorem decodeTicketFields_of_absent (i : Int) (fields : List (String × Value))
    (habs : ∀ k ∈ trackedKeys, mapGet k fields = none) :
    decodeTicketFields i fields =
      some { id := i, summary := "", description := "", component := "",
             owner := "", reporter := "", tester := "", priority := "",
             milestone := "", status := "", reviewer := "",
             resolution := "" } := by
  have gv : ∀ k, mapGet k fields = none → get_val fields k = some "" := by
    intro k hk
    simp [get_val, hk]
  have e1 := gv "summary" (habs "summary" (by decide))
  have e2 := gv "description" (habs "description" (by decide))
  have e3 := gv "component" (habs "component" (by decide))
  have e4 := gv "reporter" (habs "reporter" (by decide))
  have e5 := gv "owner" (habs "owner" (by decide))
  have e6 := gv "reviewer" (habs "reviewer" (by decide))
  have e7 := gv "tester" (habs "tester" (by decide))
  have e8 := gv "priority" (habs "priority" (by decide))
  have e9 := gv "milestone" (habs "milestone" (by decide))
  have e10 := gv "status" (habs "status" (by decide))
  have e11 := gv "resolution" (habs "resolution" (by decide))
  simp only [decodeTicketFields, Option.bind_eq_bind', e1, Option.some_bind,
    e2, e3, e4, e5, e6, e7, e8, e9, e10, e11, Option.pure_def]

/-- C6: a `ticket.get` response with an integer at index 0 and a struct at
index 3 containing none of the eleven tracked keys decodes to a record with
that id and all eleven string fields empty. -/
theorem C6_theorem (srv : Server) (id : Int) (r : Value) (i : Int)
    (fields : List (String × Value))
    (h : srv { method := "ticket.get", args := [Value.int id] } = Except.ok r)
    (h3 : (valueIndex r 3).as_struct = some fields)
    (h0 : (valueIndex r 0).as_i32 = some i)
    (habs : ∀ k ∈ trackedKeys, mapGet k fields = none) :
    TracTicket.get srv id =
      RunResult.ok { id := i, summary := "", description := "", component := "",
                     owner := "", reporter := "", tester := "", priority := "",
                     milestone := "", status := "", reviewer := "",
                     resolution := "" } := by
  unfold TracTicket.get
  rw [h]
  simp only [decodeTicket, Option.bind_eq_bind', h3, Option.some_bind, h0]
  rw [decodeTicketFields_of_absent i fields habs]

/-- Witness for C6 on a response carrying id 7 and an attribute struct with
one untracked key. -/
theorem C6_witness :
    TracTicket.get
      (fun _ => Except.ok (Value.array
        [Value.int 7, Value.nil, Value.nil,
         Value.struct [("other", Value.bool true)]])) 7 =
      RunResult.ok { id := 7, summary := "", description := "", component := "",
                     owner := "", reporter := "", tester := "", priority := "",
                     milestone := "", status := "", reviewer := "",
                     resolution := "" } :=
  C6_theorem
    (fun _ => Except.ok (Value.array
      [Value.int 7, Value.nil, Value.nil,
       Value.struct [("other", Value.bool true)]]))
    7
    (Value.array [Value.int 7, Value.nil, Value.nil,
                  Value.struct [("other", Value.bool true)]])
    7 [("other", Value.bool true)] rfl rfl rfl
    (by intro k hk; fin_cases hk <;> rfl)

theorem decodeActions_eq_none_of_mem {items : List Value} {item : Value}
    (hmem : item ∈ items) (hbad : decodeAction item = none) :
    decodeActions items = none := by
  induction items with
  | nil => cases hmem
  | cons hd tl ih =>
    rcases List.mem_cons.mp hmem with h' | h'
    · subst h'
      simp [decodeActions, hbad]
    · cases hhd : decodeAction hd with
      | none => simp [decodeActions, hhd]
      | some a => simp [decodeActions, hhd, ih h']

/-- C4 counterexample: on a response that is an array with a malformed
element, `actions` panics (the `unwrap` inside `val_to_string`) instead of
returning an empty sequence. -/
theorem C4_counterexample :
    TracTicket.actions (fun _ => Except.ok (Value.array [Value.int 5]))
        sampleTicket = none ∧
    TracTicket.actions (fun _ => Except.ok (Value.array [Value.int 5]))
        sampleTicket ≠ some [] :=
  ⟨rfl, fun h => Option.noConfusion h⟩

/-- C4 amended: `actions` returns an empty sequence on a transport error and
on an `Ok` response that is not an array, and decodes an array response
element-wise; but an array element whose components do not decode as strings
makes it panic rather than return an empty sequence. -/
theorem C4_theorem (srv : Server) (t : TracTicket) :
    (srv { method := "ticket.getActions", args := [Value.int t.id] } =
        Except.error () →
      TracTicket.actions srv t = some []) ∧
    (∀ r, srv { method := "ticket.getActions", args := [Value.int t.id] } =
        Except.ok r →
      (∀ xs, r ≠ Value.array xs) → TracTicket.actions srv t = some []) ∧
    (∀ items, srv { method := "ticket.getActions", args := [Value.int t.id] } =
        Except.ok (Value.array items) →
      TracTicket.actions srv t = decodeActions items) ∧
    (∀ items item,
      srv { method := "ticket.getActions", args := [Value.int t.id] } =
        Except.ok (Value.array items) →
      item ∈ items → decodeAction item = none →
      TracTicket.actions srv t = none) := by
  refine ⟨?_, ?_, ?_, ?_⟩
  · intro h
    simp [TracTicket.actions, h]
  · intro r h hr
    cases r with
    | array xs => exact absurd rfl (hr xs)
    | int i => simp [TracTicket.actions, h]
    | bool b => simp [TracTicket.actions, h]
    | string s => simp [TracTicket.actions, h]
    | struct m => simp [TracTicket.actions, h]
    | nil => simp [TracTicket.actions, h]
  · intro items h
    simp [TracTicket.actions, h]
  · intro items item h hmem hbad
    simp [TracTicket.actions, h, decodeActions_eq_none_of_mem hmem hbad]

/-- Witness for C4 amended: transport error, non-array response, array
response, and a panicking malformed element. -/
theorem C4_witness :
    TracTicket.actions (fun _ => Except.error ()) sampleTicket = some [] ∧
    TracTicket.actions (fun _ => Except.ok (Value.int 0)) sampleTicket = some [] ∧
    TracTicket.actions
      (fun _ => Except.ok (Value.array
        [Value.array [Value.string "leave", Value.string "Leave the ticket"]]))
      sampleTicket =
      decodeActions
        [Value.array [Value.string "leave", Value.string "Leave the ticket"]] ∧
    TracTicket.actions (fun _ => Except.ok (Value.array [Value.bool true]))
      sampleTicket = none :=
  ⟨(C4_theorem (fun _ => Except.error ()) sampleTicket).1 rfl,
   (C4_theorem (fun _ => Except.ok (Value.int 0)) sampleTicket).2.1
     (Value.int 0) rfl (fun _ h => Value.noConfusion h),
   (C4_theorem (fun _ => Except.ok (Value.array
       [Value.array [Value.string "leave", Value.string "Leave the ticket"]]))
       sampleTicket).2.2.1
     [Value.array [Value.string "leave", Value.string "Leave the ticket"]] rfl,
   (C4_theorem (fun _ => Except.ok (Value.array [Value.bool true]))
       sampleTicket).2.2.2
     [Value.bool true] (Value.bool true) rfl (by simp) rfl⟩

theorem decodeFields_cons_skip {v : Value} {rest : List Value}
    (h : decodeFieldElem v = FieldStep.skip) :
    decodeFields (v :: rest) = decodeFields rest := by
  simp [decodeFields, h]

theorem decodeFields_cons_panic {v : Value} {rest : List Value}
    (h : decodeFieldElem v = FieldStep.panicked) :
    decodeFields (v :: rest) = none := by
  simp [decodeFields, h]

theorem decodeFieldElem_skip_of_not_struct {v : Value}
    (h : v.as_struct = none) : decodeFieldElem v = FieldStep.skip := by
  simp [decodeFieldElem, h]

theorem decodeFieldElem_skip_of_name_not_string {m : List (String × Value)}
    {w : Value} (h : mapGet "name" m = some w)
    (hw : ∀ s, w ≠ Value.string s) :
    decodeFieldElem (Value.struct m) = FieldStep.skip := by
  cases w with
  | string s => exact absurd rfl (hw s)
  | int i => simp [decodeFieldElem, Value.as_struct, h]
  | bool b => simp [decodeFieldElem, Value.as_struct, h]
  | array xs => simp [decodeFieldElem, Value.as_struct, h]
  | struct m' => simp [decodeFieldElem, Value.as_struct, h]
  | nil => simp [decodeFieldElem, Value.as_struct, h]

theorem decodeFieldElem_skip_of_type_not_string {m : List (String × Value)}
    {n : String} {w : Value} (hn : mapGet "name" m = some (Value.string n))
    (h : mapGet "type" m = some w) (hw : ∀ s, w ≠ Value.string s) :
    decodeFieldElem (Value.struct m) = FieldStep.skip := by
  cases w with
  | string s => exact absurd rfl (hw s)
  | int i => simp [decodeFieldElem, Value.as_struct, hn, h]
  | bool b => simp [decodeFieldElem, Value.as_struct, hn, h]
  | array xs => simp [decodeFieldElem, Value.as_struct, hn, h]
  | struct m' => simp [decodeFieldElem, Value.as_struct, hn, h]
  | nil => simp [decodeFieldElem, Value.as_struct, hn, h]

theorem decodeFieldElem_skip_of_unknown_label {m : List (String × Value)}
    {n l : String} (hn : mapGet "name" m = some (Value.string n))
    (ht : mapGet "type" m = some (Value.string l))
    (hl : decodeFieldType l = none) :
    decodeFieldElem (Value.struct m) = FieldStep.skip := by
  simp [decodeFieldElem, Value.as_struct, hn, ht, hl]

theorem decodeFieldElem_panic_of_no_name {m : List (String × Value)}
    (h : mapGet "name" m = none) :
    decodeFieldElem (Value.struct m) = FieldStep.panicked := by
  simp [decodeFieldElem, Value.as_struct, h]

theorem decodeFieldElem_panic_of_no_type {m : List (String × Value)}
    {n : String} (hn : mapGet "name" m = some (Value.string n))
    (h : mapGet "type" m = none) :
    decodeFieldElem (Value.struct m) = FieldStep.panicked := by
  simp [decodeFieldElem, Value.as_struct, hn, h]

/-- C2 counterexample: an array response whose single element is a struct
without a `name` entry makes the whole read panic (the `BTreeMap` indexing
`field_meta["name"]`), instead of being skipped. -/
theorem C2_counterexample :
    decodeFieldElem (Value.struct [("type", Value.string "text")]) =
      FieldStep.panicked ∧
    TracTicketFieldSet.get
      (fun _ => Except.ok (Value.array
        [Value.struct [("type", Value.string "text")]])) =
      RunResult.panicked :=
  ⟨rfl, rfl⟩

/-- C2 amended: in `TracTicketFieldSet::get`, a non-struct element, a struct
element whose `name` or `type` entry holds a non-string value, and one whose
`type` label is unrecognised are skipped and processing continues with the
remaining elements; but a struct element missing its `name` or `type` entry
panics and aborts the whole read. -/
theorem C2_theorem :
    (∀ (v : Value) (rest : List Value), v.as_struct = none →
      decodeFields (v :: rest) = decodeFields rest) ∧
    (∀ (m : List (String × Value)) (rest : List Value) (w : Value),
      mapGet "name" m = some w → (∀ s, w ≠ Value.string s) →
      decodeFields (Value.struct m :: rest) = decodeFields rest) ∧
    (∀ (m : List (String × Value)) (rest : List Value) (n : String) (w : Value),
      mapGet "name" m = some (Value.string n) → mapGet "type" m = some w →
      (∀ s, w ≠ Value.string s) →
      decodeFields (Value.struct m :: rest) = decodeFields rest) ∧
    (∀ (m : List (String × Value)) (rest : List Value) (n l : String),
      mapGet "name" m = some (Value.string n) →
      mapGet "type" m = some (Value.string l) → decodeFieldType l = none →
      decodeFields (Value.struct m :: rest) = decodeFields rest) ∧
    (∀ (m : List (String × Value)) (rest : List Value),
      mapGet "name" m = none → decodeFields (Value.struct m :: rest) = none) ∧
    (∀ (m : List (String × Value)) (rest : List Value) (n : String),
      mapGet "name" m = some (Value.string n) → mapGet "type" m = none →
      decodeFields (Value.struct m :: rest) = none) :=
  ⟨fun _ _ h => decodeFields_cons_skip (decodeFieldElem_skip_of_not_struct h),
   fun _ _ _ h hw =>
     decodeFields_cons_skip (decodeFieldElem_skip_of_name_not_string h hw),
   fun _ _ _ _ hn h hw =>
     decodeFields_cons_skip (decodeFieldElem_skip_of_type_not_string hn h hw),
   fun _ _ _ _ hn ht hl =>
     decodeFields_cons_skip (decodeFieldElem_skip_of_unknown_label hn ht hl),
   fun _ _ h => decodeFields_cons_panic (decodeFieldElem_panic_of_no_name h),
   fun _ _ _ hn h =>
     decodeFields_cons_panic (decodeFieldElem_panic_of_no_type hn h)⟩

/-- Witness for C2 amended, evaluating each case on a concrete element
followed by a well-formed element. -/
theorem C2_witness :
    decodeFields [Value.int 9,
      Value.struct [("name", Value.string "g"), ("type", Value.string "text")]] =
      decodeFields
        [Value.struct [("name", Value.string "g"), ("type", Value.string "text")]] ∧
    decodeFields [Value.struct [("name", Value.int 4), ("type", Value.string "text")]] =
      decodeFields [] ∧
    decodeFields [Value.struct [("name", Value.string "f"), ("type", Value.int 4)]] =
      decodeFields [] ∧
    decodeFields [Value.struct [("name", Value.string "f"), ("type", Value.string "time")]] =
      decodeFields [] ∧
    decodeFields [Value.struct [("type", Value.string "textarea")]] = none ∧
    decodeFields [Value.struct [("name", Value.string "f")]] = none :=
  ⟨C2_theorem.1 (Value.int 9)
     [Value.struct [("name", Value.string "g"), ("type", Value.string "text")]] rfl,
   C2_theorem.2.1 [("name", Value.int 4), ("type", Value.string "text")] []
     (Value.int 4) rfl (fun _ h => Value.noConfusion h),
   C2_theorem.2.2.1 [("name", Value.string "f"), ("type", Value.int 4)] []
     "f" (Value.int 4) rfl rfl (fun _ h => Value.noConfusion h),
   C2_theorem.2.2.2.1 [("name", Value.string "f"), ("type", Value.string "time")] []
     "f" "time" rfl rfl rfl,
   C2_theorem.2.2.2.2.1 [("type", Value.string "textarea")] [] rfl,
   C2_theorem.2.2.2.2.2 [("name", Value.string "f")] [] "f" rfl rfl⟩

/-- C7: the label map is exactly `text→String`, `textarea→Text`,
`select|radio→DropDown`, `checkbox→Boolean`; every other label maps to no
field type, and a well-formed element carrying such a label is skipped
without aborting the processing of subsequent elements. -/
theorem C7_theorem :
    decodeFieldType "text" = some TracTicketFieldType.String ∧
    decodeFieldType "textarea" = some TracTicketFieldType.Text ∧
    decodeFieldType "select" = some TracTicketFieldType.DropDown ∧
    decodeFieldType "radio" = some TracTicketFieldType.DropDown ∧
    decodeFieldType "checkbox" = some TracTicketFieldType.Boolean ∧
    (∀ l, l ≠ "text" → l ≠ "textarea" → l ≠ "select" → l ≠ "radio" →
      l ≠ "checkbox" → decodeFieldType l = none) ∧
    (∀ (m : List (String × Value)) (rest : List Value) (n l : String),
      mapGet "name" m = some (Value.string n) →
      mapGet "type" m = some (Value.string l) → decodeFieldType l = none →
      decodeFieldElem (Value.struct m) = FieldStep.skip ∧
      decodeFields (Value.struct m :: rest) = decodeFields rest) := by
  refine ⟨rfl, rfl, rfl, rfl, rfl, ?_, ?_⟩
  · intro l h1 h2 h3 h4 h5
    simp [decodeFieldType, h1, h2, h3, h4, h5]
  · intro m rest n l hn ht hl
    have hskip := decodeFieldElem_skip_of_unknown_label hn ht hl
    exact ⟨hskip, decodeFields_cons_skip hskip⟩

/-- Witness for C7 on the unrecognised label `multi`: it maps to no field
type and the carrying element is skipped while the next element is still
processed. -/
theorem C7_witness :
    decodeFieldType "multi" = none ∧
    (decodeFieldElem (Value.struct
        [("name", Value.string "f"), ("type", Value.string "multi")]) =
      FieldStep.skip ∧
     decodeFields [Value.struct
        [("name", Value.string "f"), ("type", Value.string "multi")],
        Value.struct [("name", Value.string "g"), ("type", Value.string "text")]] =
      decodeFields
        [Value.struct [("name", Value.string "g"), ("type", Value.string "text")]]) :=
  ⟨C7_theorem.2.2.2.2.2.1 "multi" (by decide) (by decide) (by decide)
     (by decide) (by decide),
   C7_theorem.2.2.2.2.2.2
     [("name", Value.string "f"), ("type", Value.string "multi")]
     [Value.struct [("name", Value.string "g"), ("type", Value.string "text")]]
     "f" "multi" rfl rfl rfl⟩
